import Mathlib

/-
Verification of the node-registry part of `magmatic` (`magmatic/pool.py` and
`magmatic/errors.py`) against its natural-language specification.

The repository sources contain `pool.py` and `errors.py` only; `node.py` and
`player.py` are referenced but absent.  Everything that `pool.py` itself does
is translated from the source; the pieces of `Node` that `pool.py` reads or
calls (`identifier`, `region`, `player_count`, `get_player`, `destroy`) are
modelled from the specification, as marked on each definition.

Python data is embedded as follows: `dict` (insertion-ordered) becomes an
association list with in-place update for existing keys and append for new
keys; `Optional[str]` becomes `Option String`; exceptions become explicit
error values, paired with the post-state when the operation mutates the pool.
-/

set_option maxHeartbeats 1000000

namespace Magmatic

/-- Observable attributes of `node.Node` used by `pool.py`: the constructor
arguments that matter to the pool (`identifier`, `host`, `port`, `region`)
plus two attributes modelled from the spec because `node.py` is absent from
the sources: `player_count`, the load metric (server-reported node-wide
statistics, spec §4.2), and `players`, the mapping from guild id to the
identity of the `Player` owned for that guild (spec §4.2 `resolveSession`).
Runtime-only constructor arguments (`bot`, `session`, `loop`, `password`,
`prefer_http`, `secure`, `serializer`) do not influence any pool behaviour
and are omitted. -/
structure Node where
  identifier : Option String
  host : String := "127.0.0.1"
  port : Nat := 2333
  region : Option String := none
  player_count : Nat := 0
  players : List (Nat × Nat) := []
  deriving Repr, DecidableEq

/-- Errors raised by the pool operations (`magmatic/errors.py`).
`NodeConflict` carries the conflicting identifier; it is an `Option String`
because `NodePool.create_node` can reach the conflict check with Python
`None` as the identifier. -/
inductive PoolError where
  | NodeConflict (identifier : Option String)
  | NoAvailableNodes
  | NoMatches (identifier : Option String) (region : Option String)
  | PlayerNotFound
  deriving Repr, DecidableEq

/-- Lookup in an insertion-ordered Python `dict`, embedded as an association
list: the value of the first entry with the given key. -/
def dictGet {α β : Type} [DecidableEq α] (k : α) : List (α × β) → Option β
  | [] => none
  | (k', v) :: rest => if k' = k then some v else dictGet k rest

/-- Membership test `k in d` on a Python `dict`. -/
def dictContains {α β : Type} [DecidableEq α] (k : α) (m : List (α × β)) : Bool :=
  m.any (fun p => decide (p.1 = k))

/-- Assignment `d[k] = v` on a Python `dict`: replaces the value in place
(keeping the entry's position) when the key is present, appends otherwise. -/
def dictSet {α β : Type} [DecidableEq α] (k : α) (v : β) (m : List (α × β)) : List (α × β) :=
  if dictContains k m then m.map (fun p => if p.1 = k then (k, v) else p) else m ++ [(k, v)]

/-- Iteration order of `d.values()` on a Python `dict`. -/
def dictValues {α β : Type} (m : List (α × β)) : List β := m.map Prod.snd

/-- State of `NodePool`: the single field `self._nodes`, an insertion-ordered
mapping from identifier to node (`pool.py` line 39).  The key type is
`Option String` because `create_node` can store a node under Python `None`. -/
structure NodePool where
  _nodes : List (Option String × Node) := []
  deriving Repr, DecidableEq

/-- Embedding of `NodePool.walk_nodes` (`pool.py` lines 46-54): yields the
values of `self._nodes` in insertion order. -/
def NodePool.walk_nodes (pool : NodePool) : List Node :=
  dictValues pool._nodes

/-- Embedding of the `NodePool.nodes` property (`pool.py` lines 41-44). -/
def NodePool.nodes (pool : NodePool) : List Node :=
  pool.walk_nodes

/-- Python truthiness-based `a or b` on `Optional[str]` values: `None` and
the empty string are falsy. -/
def pyOr (a b : Option String) : Option String :=
  match a with
  | none => b
  | some s => if s = "" then b else some s

/-- Embedding of `NodePool.add_node` (`pool.py` lines 56-73).  Returns the
raised error (if any) together with the pool state afterwards; the conflict
check happens before any mutation.  Note the source's quirk: the conflict
check uses `identifier` (after defaulting `None` to `node.identifier`), but
the storage key is `identifier or node.identifier`, which differs when the
supplied identifier is the empty string. -/
def NodePool.add_node (pool : NodePool) (node : Node) (identifier : Option String) :
    Option PoolError × NodePool :=
  let identifier := match identifier with
    | none => node.identifier
    | some s => some s
  if dictContains identifier pool._nodes then
    (some (.NodeConflict identifier), pool)
  else
    (none, ⟨dictSet (pyOr identifier node.identifier) node pool._nodes⟩)

/-- Embedding of `NodePool.create_node` (`pool.py` lines 75-163).  An
identifier of `none` defaults to `"MAIN"` only when the pool is empty; it is
otherwise left as `none` and used directly as the dict key.  The freshly
constructed node starts with no players (spec §3: a `Connection` is
constructed registered-but-unstarted, its session map empty). -/
def NodePool.create_node (pool : NodePool) (host : String) (port : Nat)
    (region : Option String) (identifier : Option String) :
    Except PoolError Node × NodePool :=
  let identifier := if identifier = none ∧ pool._nodes = [] then some "MAIN" else identifier
  if dictContains identifier pool._nodes then
    (.error (.NodeConflict identifier), pool)
  else
    let node : Node :=
      { identifier := identifier, host := host, port := port, region := region,
        player_count := 0, players := [] }
    (.ok node, ⟨dictSet identifier node pool._nodes⟩)

/-- Stable insertion of a node into a list sorted by `player_count`,
auxiliary to `sortedByPlayerCount`. -/
def insertByPlayerCount (n : Node) : List Node → List Node
  | [] => [n]
  | m :: ms =>
    if n.player_count ≤ m.player_count then n :: m :: ms
    else m :: insertByPlayerCount n ms

/-- Embedding of Python's `sorted(nodes, key=lambda node: node.player_count)`
(`pool.py` line 288).  Python's `sorted` is a stable ascending sort; it is
embedded as stable insertion sort, which agrees with it on every list. -/
def sortedByPlayerCount : List Node → List Node
  | [] => []
  | n :: ns => insertByPlayerCount n (sortedByPlayerCount ns)

/-- Embedding of `NodePool.get_node` (`pool.py` lines 251-290): raises
`NoAvailableNodes` on an empty pool (before looking at the arguments), does
an exact dict lookup when an identifier is given, and otherwise returns the
head of the stable sort by load of the (optionally region-filtered) nodes,
raising `NoMatches` when the filtered list is empty. -/
def NodePool.get_node (pool : NodePool) (identifier : Option String)
    (region : Option String) : Except PoolError Node :=
  if pool._nodes = [] then .error .NoAvailableNodes
  else
    match identifier with
    | some i =>
      match dictGet (some i) pool._nodes with
      | some node => .ok node
      | none => .error (.NoMatches identifier region)
    | none =>
      let nodes := match region with
        | some r => pool.walk_nodes.filter (fun n => n.region == some r)
        | none => pool.walk_nodes
      match sortedByPlayerCount nodes with
      | [] => .error (.NoMatches identifier region)
      | n :: _ => .ok n

/-- Modelled from the spec: `Node.get_player` (`resolveSession(key,
failIfAbsent)`, spec §4.2), since `node.py` is absent from the sources.
Returns the existing player for the guild or, unless `fail_if_not_exists`,
lazily creates one.  Player identity is embedded as a number drawn from the
`fresh` counter, threaded through so that distinct creations yield distinct
players; the function returns the player, the updated node, and the new
counter. -/
def Node.get_player (node : Node) (guild : Nat) (fail_if_not_exists : Bool)
    (fresh : Nat) : Except PoolError (Nat × Node × Nat) :=
  match dictGet guild node.players with
  | some pid => .ok (pid, node, fresh)
  | none =>
    if fail_if_not_exists then .error .PlayerNotFound
    else .ok (fresh, { node with players := dictSet guild fresh node.players }, fresh + 1)

/-- Embedding of the scan loop in `NodePool.get_player` (`pool.py` lines
315-319): walk the nodes in registration order, returning the first existing
player for the guild and swallowing `PlayerNotFound`. -/
def scanPlayers (guild : Nat) : List Node → Option Nat
  | [] => none
  | n :: ns =>
    match dictGet guild n.players with
    | some pid => some pid
    | none => scanPlayers guild ns

/-- Replacement of the first occurrence of a node value in the pool's entry
list.  This embeds Python's in-place mutation of the `Node` object returned
by `get_node`/passed by the caller: the pool dict holds a reference to the
object, so the mutation is visible at the entry holding it.  It is exact
whenever each node object occurs at most once in the dict, which holds for
every pool built by `create_node`, and also for the entry `get_node` selects
(an earlier structurally equal entry would itself have been selected). -/
def replaceFirstValue (old new : Node) : List (Option String × Node) →
    List (Option String × Node)
  | [] => []
  | (k, n) :: rest =>
    if n = old then (k, new) :: rest else (k, n) :: replaceFirstValue old new rest

/-- Shared tail `return node.get_player(guild)` of `NodePool.get_player`
(`pool.py` line 323): create-or-get the player on the chosen node and
reflect the node's mutation into the pool state. -/
def NodePool.get_player_on (pool : NodePool) (guild fresh : Nat) (n : Node) :
    Except PoolError Nat × NodePool × Nat :=
  match n.get_player guild false fresh with
  | .ok (pid, n', fresh') => (.ok pid, ⟨replaceFirstValue n n' pool._nodes⟩, fresh')
  | .error e => (.error e, pool, fresh)

/-- Embedding of `NodePool.get_player` (`pool.py` lines 292-323).  With an
explicit node, delegates to it directly; otherwise scans the registered
nodes in registration order for an existing player and, failing that, picks
a node with `get_node()` and creates the player there.  The result carries
the raised error or player identity, the pool state, and the fresh-player
counter. -/
def NodePool.get_player (pool : NodePool) (guild : Nat) (node? : Option Node)
    (fresh : Nat) : Except PoolError Nat × NodePool × Nat :=
  match node? with
  | some n => pool.get_player_on guild fresh n
  | none =>
    match scanPlayers guild pool.walk_nodes with
    | some pid => (.ok pid, pool, fresh)
    | none =>
      match pool.get_node none none with
      | .error e => (.error e, pool, fresh)
      | .ok sel => pool.get_player_on guild fresh sel

/-- Auxiliary loop of `NodePool.destroy` (`pool.py` lines 332-333),
parameterised by `outcome`, which models whether each node's
`Node.destroy()` (absent `node.py`; spec §4.2 `teardown`) completes (`true`)
or raises (`false`).  Returns the nodes whose destroy call completed before
the loop stopped, and whether the whole loop completed. -/
def destroyNodes (outcome : Node → Bool) : List Node → List Node × Bool
  | [] => ([], true)
  | n :: ns =>
    if outcome n then
      let r := destroyNodes outcome ns
      (n :: r.1, r.2)
    else ([], false)

/-- Embedding of `NodePool.destroy` (`pool.py` lines 325-335): destroy each
node in registration order, then clear the mapping.  A raising
`Node.destroy()` propagates out of the loop, skipping the remaining nodes
and the `clear()`.  Returns the successfully destroyed nodes, whether the
call completed without raising, and the pool state afterwards.  Only the
pool's mapping is tracked; the internal state of the destroyed node objects
is not modelled (`node.py` is absent). -/
def NodePool.destroy (pool : NodePool) (outcome : Node → Bool) :
    List Node × Bool × NodePool :=
  let r := destroyNodes outcome pool.walk_nodes
  if r.2 then (r.1, true, (⟨[]⟩ : NodePool)) else (r.1, false, pool)

/-- Connectivity errors raised by `Node.start()` (`errors.py`); the start
behaviour itself is modelled from the spec (§4.2), `node.py` being absent. -/
inductive StartError where
  | ConnectionFailure
  | HandshakeFailure
  | AuthorizationFailure
  deriving Repr, DecidableEq

/-- Embedding of `NodePool.start_node` (`pool.py` lines 165-249):
`create_node` followed by `node.start()`.  The start behaviour is modelled
from the spec as an `outcome` map from node to optional connectivity error
(`node.py` is absent); a start failure propagates, and the created node
stays registered. -/
def NodePool.start_node (pool : NodePool) (outcome : Node → Option StartError)
    (host : String) (port : Nat) (region : Option String)
    (identifier : Option String) :
    Except (PoolError ⊕ StartError) Node × NodePool :=
  match pool.create_node host port region identifier with
  | (.error e, p) => (.error (.inl e), p)
  | (.ok n, p) =>
    match outcome n with
    | some e => (.error (.inr e), p)
    | none => (.ok n, p)

/-- Embedding of the process-wide default pool (`pool.py` line 341):
`DefaultNodePool = NodePool()`, whose constructor sets `self._nodes = {}`.
Its state is threaded explicitly through the module-level functions below. -/
def DefaultNodePool : NodePool := {}

/-- Embedding of the module-level `create_node` (`pool.py` lines 344-371),
which delegates to `DefaultNodePool.create_node` with the same arguments;
the `pool` parameter is the current state of `DefaultNodePool`. -/
def create_node (pool : NodePool) (host : String) (port : Nat)
    (region : Option String) (identifier : Option String) :
    Except PoolError Node × NodePool :=
  NodePool.create_node pool host port region identifier

/-- Embedding of the module-level `start_node` (`pool.py` lines 374-401),
which delegates to `DefaultNodePool.start_node` with the same arguments. -/
def start_node (pool : NodePool) (outcome : Node → Option StartError)
    (host : String) (port : Nat) (region : Option String)
    (identifier : Option String) :
    Except (PoolError ⊕ StartError) Node × NodePool :=
  NodePool.start_node pool outcome host port region identifier

/-- Embedding of the module-level `add_node` (`pool.py` lines 404-406),
which delegates to `DefaultNodePool.add_node` with the same arguments. -/
def add_node (pool : NodePool) (node : Node) (identifier : Option String) :
    Option PoolError × NodePool :=
  NodePool.add_node pool node identifier

/-- Embedding of the module-level `get_node` (`pool.py` lines 409-411),
which delegates to `DefaultNodePool.get_node` with the same arguments. -/
def get_node (pool : NodePool) (identifier : Option String)
    (region : Option String) : Except PoolError Node :=
  NodePool.get_node pool identifier region

/-- Embedding of the module-level `get_player` (`pool.py` lines 414-416),
which delegates to `DefaultNodePool.get_player` with the same arguments. -/
def get_player (pool : NodePool) (guild : Nat) (node? : Option Node)
    (fresh : Nat) : Except PoolError Nat × NodePool × Nat :=
  NodePool.get_player pool guild node? fresh

/-! ## Basic lemmas about the dict embedding -/

theorem dictContains_nil {α β : Type} [DecidableEq α] (k : α) :
    dictContains k ([] : List (α × β)) = false := rfl

theorem dictContains_cons {α β : Type} [DecidableEq α] (k k' : α) (v : β)
    (m : List (α × β)) :
    dictContains k ((k', v) :: m) = (decide (k' = k) || dictContains k m) := by
  simp [dictContains]

theorem dictGet_none_iff {α β : Type} [DecidableEq α] (k : α) (m : List (α × β)) :
    dictGet k m = none ↔ dictContains k m = false := by
  induction m with
  | nil => simp [dictGet, dictContains]
  | cons p rest ih =>
    obtain ⟨k', v⟩ := p
    by_cases hk : k' = k
    · simp [dictGet, dictContains_cons, hk]
    · simp [dictGet, dictContains_cons, hk, ih]

theorem dictSet_of_not_contains {α β : Type} [DecidableEq α] (k : α) (v : β)
    (m : List (α × β)) (h : dictContains k m = false) :
    dictSet k v m = m ++ [(k, v)] := by
  simp [dictSet, h]

theorem dictGet_append_self {α β : Type} [DecidableEq α] (k : α) (v : β)
    (m : List (α × β)) (h : dictContains k m = false) :
    dictGet k (m ++ [(k, v)]) = some v := by
  induction m with
  | nil => simp [dictGet]
  | cons p rest ih =>
    obtain ⟨k', w⟩ := p
    rw [dictContains_cons] at h
    rcases Bool.or_eq_false_iff.mp h with ⟨h1, h2⟩
    have hk : ¬ k' = k := by simpa using h1
    simpa [dictGet, hk] using ih h2

/-! ## The head of the stable sort by load -/

theorem sortedByPlayerCount_head (l : List Node) (hne : l ≠ []) :
    ∃ n t, sortedByPlayerCount l = n :: t ∧ n ∈ l ∧
      (∀ m ∈ l, n.player_count ≤ m.player_count) ∧
      List.find? (fun m => m.player_count == n.player_count) l = some n := by
  induction l with
  | nil => exact absurd rfl hne
  | cons a l ih =>
    cases l with
    | nil =>
      refine ⟨a, [], rfl, by simp, by simp, ?_⟩
      simp [List.find?]
    | cons b l' =>
      obtain ⟨n', t', hs, hmem', hmin', hfind'⟩ := ih (by simp)
      have hsort : sortedByPlayerCount (a :: b :: l')
          = insertByPlayerCount a (sortedByPlayerCount (b :: l')) := rfl
      rw [hs] at hsort
      by_cases hle : a.player_count ≤ n'.player_count
      · refine ⟨a, n' :: t', by rw [hsort, insertByPlayerCount, if_pos hle],
          by simp, ?_, ?_⟩
        · intro m hm
          rcases List.mem_cons.mp hm with rfl | hm'
          · exact le_refl _
          · exact le_trans hle (hmin' m hm')
        · simp [List.find?]
      · have hlt : n'.player_count < a.player_count := lt_of_not_le hle
        refine ⟨n', insertByPlayerCount a t',
          by rw [hsort, insertByPlayerCount, if_neg hle], by simp [hmem'], ?_, ?_⟩
        · intro m hm
          rcases List.mem_cons.mp hm with rfl | hm'
          · exact le_of_lt hlt
          · exact hmin' m hm'
        · have hne' : (a.player_count == n'.player_count) = false := by
            simp [Nat.ne_of_gt hlt]
          rw [List.find?_cons_of_neg (b :: l') (by simp [hne']), hfind']

theorem walk_nodes_ne_nil (pool : NodePool) (h : pool._nodes ≠ []) :
    pool.walk_nodes ≠ [] := by
  simpa [NodePool.walk_nodes, dictValues] using h

theorem get_node_mem (pool : NodePool) (sel : Node)
    (h : pool.get_node none none = .ok sel) : sel ∈ pool.walk_nodes := by
  by_cases hnil : pool._nodes = []
  · simp [NodePool.get_node, hnil] at h
  · obtain ⟨n, t, hsort, hmem, -, -⟩ :=
      sortedByPlayerCount_head pool.walk_nodes (walk_nodes_ne_nil pool hnil)
    simp only [NodePool.get_node, if_neg hnil, hsort] at h
    injection h with hh
    exact hh ▸ hmem

/-! ## Lemmas about the player scan -/

theorem scanPlayers_eq_none (g : Nat) (l : List Node)
    (h : scanPlayers g l = none) : ∀ n ∈ l, dictGet g n.players = none := by
  induction l with
  | nil => intro n hn; simp at hn
  | cons a l ih =>
    intro n hn
    rcases hget : dictGet g a.players with - | pid
    · rcases List.mem_cons.mp hn with rfl | hn'
      · exact hget
      · exact ih (by simpa [scanPlayers, hget] using h) n hn'
    · simp [scanPlayers, hget] at h

theorem scanPlayers_replaceFirstValue (m : List (Option String × Node))
    (sel sel' : Node) (g pid : Nat)
    (hall : ∀ n ∈ dictValues m, dictGet g n.players = none)
    (hmem : sel ∈ dictValues m)
    (hnew : dictGet g sel'.players = some pid) :
    scanPlayers g (dictValues (replaceFirstValue sel sel' m)) = some pid := by
  induction m with
  | nil => simp [dictValues] at hmem
  | cons p rest ih =>
    obtain ⟨k, n⟩ := p
    by_cases hn : n = sel
    · simp [replaceFirstValue, hn, dictValues, scanPlayers, hnew]
    · have hmem' : sel ∈ dictValues rest := by
        rcases (by simpa [dictValues] using hmem : sel = n ∨ sel ∈ dictValues rest) with
          h | h
        · exact absurd h.symm hn
        · exact h
      have hall' : ∀ x ∈ dictValues rest, dictGet g x.players = none := by
        intro x hx
        exact hall x (by simp [dictValues] at hx ⊢; exact Or.inr hx)
      have hhead : dictGet g n.players = none :=
        hall n (by simp [dictValues])
      simp [replaceFirstValue, hn, dictValues, scanPlayers, hhead]
      simpa [dictValues] using ih hall' hmem'

/-! ## Claim C1 -/

/-- C1: `select()` with no identifier and no region (`NodePool.get_node none
none`) on a non-empty registry returns a registered node whose load metric
(`player_count`) is minimal among all registered nodes, and among the nodes
sharing the minimal load it returns the earliest-registered one: the
returned node is the first node in registration order whose load equals its
own (minimal) load. -/
theorem get_node_selects_least_loaded (pool : NodePool) (h : pool._nodes ≠ []) :
    ∃ n, pool.get_node none none = .ok n ∧ n ∈ pool.walk_nodes ∧
      (∀ m ∈ pool.walk_nodes, n.player_count ≤ m.player_count) ∧
      List.find? (fun m => m.player_count == n.player_count) pool.walk_nodes
        = some n := by
  obtain ⟨n, t, hsort, hmem, hmin, hfind⟩ :=
    sortedByPlayerCount_head pool.walk_nodes (walk_nodes_ne_nil pool h)
  refine ⟨n, ?_, hmem, hmin, hfind⟩
  simp only [NodePool.get_node, if_neg h, hsort]

def nodeTieA : Node := { identifier := some "a", player_count := 1 }

def nodeTieB : Node := { identifier := some "b", player_count := 1 }

def poolTie : NodePool := ⟨[(some "a", nodeTieA), (some "b", nodeTieB)]⟩

/-- Witness for C1 at a concrete two-node registry whose nodes share the
minimal load: the selection succeeds and is the earliest-registered node. -/
theorem get_node_selects_least_loaded_witness :
    poolTie._nodes ≠ [] ∧
      (∃ n, poolTie.get_node none none = .ok n ∧ n ∈ poolTie.walk_nodes ∧
        (∀ m ∈ poolTie.walk_nodes, n.player_count ≤ m.player_count) ∧
        List.find? (fun m => m.player_count == n.player_count) poolTie.walk_nodes
          = some n) :=
  ⟨by decide, get_node_selects_least_loaded poolTie (by decide)⟩

/-! ## Claim C2 -/

def poolMainOnly : NodePool :=
  (NodePool.create_node ⟨[]⟩ "127.0.0.1" 2333 none none).2

def poolMainNone : NodePool :=
  (NodePool.create_node poolMainOnly "127.0.0.1" 2333 none none).2

/-- C2 fails on the code: `create_node` never auto-generates an identifier.
On the non-empty registry `poolMainOnly` (created empty, so its one node is
`"MAIN"`), the first identifier-less `create` stores its node under the
Python `None` key — the claimed non-colliding generated identifier does not
exist — and the second identifier-less `create` collides with that `None`
key and raises `NodeConflict`, contradicting both the claim and the
function's own docstring ("A completely random identifier will be generated
if this is left blank"). -/
theorem create_node_missing_autogeneration :
    (NodePool.create_node poolMainOnly "127.0.0.1" 2333 none none).1 =
        .ok { identifier := none, host := "127.0.0.1", port := 2333, region := none,
              player_count := 0, players := [] }
      ∧ poolMainNone._nodes =
          [(some "MAIN",
            { identifier := some "MAIN", host := "127.0.0.1", port := 2333,
              region := none, player_count := 0, players := [] }),
           (none,
            { identifier := none, host := "127.0.0.1", port := 2333, region := none,
              player_count := 0, players := [] })]
      ∧ (NodePool.create_node poolMainNone "127.0.0.1" 2333 none none).1 =
          .error (.NodeConflict none) :=
  ⟨rfl, rfl, rfl⟩

/-! ## Claim C3 -/

def nodeIdentA : Node := { identifier := some "A" }

/-- C3 counterexample: at the identifier `I = ""` (a string not registered in
the empty pool), `register(c, identifier="")` succeeds, but the node is
stored under `c.identifier` (the empty string is falsy in Python's
`identifier or node.identifier`), so the subsequent `select("")` raises
`NoMatches` instead of returning `c`. -/
theorem add_node_empty_identifier_not_selectable :
    (NodePool.add_node ⟨[]⟩ nodeIdentA (some "")).1 = none
      ∧ ((NodePool.add_node ⟨[]⟩ nodeIdentA (some "")).2)._nodes
          = [(some "A", nodeIdentA)]
      ∧ ((NodePool.add_node ⟨[]⟩ nodeIdentA (some "")).2).get_node (some "") none
          = .error (.NoMatches (some "") none) :=
  ⟨rfl, rfl, rfl⟩

/-- C3 (amended): for every NON-empty identifier string `I` not already
registered, `register(c, identifier=I)` succeeds and a subsequent
`select(I)` on the resulting registry returns exactly `c`. -/
theorem add_node_then_get_node (pool : NodePool) (node : Node) (I : String)
    (hI : I ≠ "") (h : dictContains (some I) pool._nodes = false) :
    ∃ p', pool.add_node node (some I) = (none, p')
      ∧ p'.get_node (some I) none = .ok node := by
  have hkey : pyOr (some I) node.identifier = some I := by simp [pyOr, hI]
  refine ⟨⟨pool._nodes ++ [(some I, node)]⟩, ?_, ?_⟩
  · simp only [NodePool.add_node, h, Bool.false_eq_true, if_false]
    rw [hkey, dictSet_of_not_contains _ _ _ h]
  · have hget : dictGet (some I) (pool._nodes ++ [(some I, node)]) = some node :=
      dictGet_append_self _ _ _ h
    simp [NodePool.get_node, hget]

def nodeIdentB : Node := { identifier := some "B", player_count := 3 }

/-- Witness for C3 (amended) at the identifier `"C"` on a one-node registry. -/
theorem add_node_then_get_node_witness :
    ("C" ≠ "" ∧
        dictContains (some "C") (⟨[(some "B", nodeIdentB)]⟩ : NodePool)._nodes
          = false) ∧
      (∃ p', NodePool.add_node ⟨[(some "B", nodeIdentB)]⟩ nodeIdentB (some "C")
            = (none, p')
          ∧ p'.get_node (some "C") none = .ok nodeIdentB) :=
  ⟨⟨by decide, by decide⟩,
    add_node_then_get_node ⟨[(some "B", nodeIdentB)]⟩ nodeIdentB "C"
      (by decide) (by decide)⟩

/-! ## Claim C8 -/

/-- C8: `create()` on an empty registry with no identifier supplied builds a
node carrying the fixed sentinel identifier `"MAIN"` and registers it under
`"MAIN"` (whatever the other configuration arguments). -/
theorem create_node_empty_defaults_main (host : String) (port : Nat)
    (region : Option String) :
    ∃ n, NodePool.create_node ⟨[]⟩ host port region none
        = (.ok n, ⟨[(some "MAIN", n)]⟩)
      ∧ n.identifier = some "MAIN" :=
  ⟨{ identifier := some "MAIN", host := host, port := port, region := region,
     player_count := 0, players := [] }, rfl, rfl⟩

/-! ## Claim C4 -/

def nodeFailA : Node := { identifier := some "A" }

def nodeFailB : Node := { identifier := some "B" }

def poolFail : NodePool := ⟨[(some "A", nodeFailA), (some "B", nodeFailB)]⟩

def outcomeFailA : Node → Bool := fun n => !(n.identifier == some "A")

/-- C4 fails on the code: `destroy` awaits each node's teardown in a bare
loop with no exception isolation, so one failing teardown aborts the
remainder and skips `self._nodes.clear()`.  At a two-node registry whose
first node's teardown raises, no node is successfully torn down (the second
is never even reached) and the mapping is left non-empty, where the claim
requires every node torn down and the mapping empty. -/
theorem destroy_stops_at_first_failure :
    poolFail.destroy outcomeFailA = ([], false, poolFail)
      ∧ poolFail._nodes ≠ [] :=
  ⟨rfl, by decide⟩

/-! ## Claim C5 -/

/-- C5 counterexample: on the EMPTY registry with an identifier supplied,
`select("X")` raises `NoAvailableNodes`, not the `NoMatches` the claim
specifies for an identifier under which no node is registered. -/
theorem get_node_empty_pool_identifier_error :
    NodePool.get_node ⟨[]⟩ (some "X") none = .error .NoAvailableNodes
      ∧ NodePool.get_node ⟨[]⟩ (some "X") none
          ≠ .error (.NoMatches (some "X") none) :=
  ⟨rfl, by intro h; injection h with h'; injection h'⟩

/-- C5 (amended): `select` raises exactly these availability errors: on an
empty registry it raises `NoAvailableNodes` whatever the arguments (in
particular also when an identifier is supplied); on a non-empty registry
with an identifier that is not a registered key it raises `NoMatches`; on a
non-empty registry with no identifier and a region filter matched by no
registered node it raises `NoMatches`; in all other cases it returns a
node and raises nothing. -/
theorem get_node_error_characterization (pool : NodePool)
    (identifier region : Option String) :
    (pool._nodes = [] → pool.get_node identifier region = .error .NoAvailableNodes)
    ∧ (∀ i, pool._nodes ≠ [] → identifier = some i →
        dictGet (some i) pool._nodes = none →
        pool.get_node identifier region = .error (.NoMatches identifier region))
    ∧ (∀ r, pool._nodes ≠ [] → identifier = none → region = some r →
        (∀ n ∈ pool.walk_nodes, n.region ≠ some r) →
        pool.get_node identifier region = .error (.NoMatches identifier region))
    ∧ (pool._nodes ≠ [] →
        (∀ i, identifier = some i → dictGet (some i) pool._nodes ≠ none) →
        (identifier = none → ∀ r, region = some r →
          ∃ n ∈ pool.walk_nodes, n.region = some r) →
        ∃ node, pool.get_node identifier region = .ok node) := by
  refine ⟨?_, ?_, ?_, ?_⟩
  · intro h
    simp [NodePool.get_node, h]
  · rintro i hne rfl hget
    simp [NodePool.get_node, hne, hget]
  · rintro r hne rfl rfl hnone
    have hfilter : pool.walk_nodes.filter (fun n => n.region == some r) = [] := by
      rw [List.filter_eq_nil_iff]
      intro n hn
      simp [hnone n hn]
    simp [NodePool.get_node, hne, hfilter, sortedByPlayerCount]
  · intro hne hid hreg
    cases identifier with
    | some i =>
      rcases hget : dictGet (some i) pool._nodes with - | node
      · exact absurd hget (hid i rfl)
      · exact ⟨node, by simp [NodePool.get_node, hne, hget]⟩
    | none =>
      cases region with
      | none =>
        obtain ⟨n, t, hsort, -, -, -⟩ :=
          sortedByPlayerCount_head pool.walk_nodes (walk_nodes_ne_nil pool hne)
        exact ⟨n, by simp [NodePool.get_node, hne, hsort]⟩
      | some r =>
        obtain ⟨n, hn, hr⟩ := hreg rfl r rfl
        have hfil : n ∈ pool.walk_nodes.filter (fun x => x.region == some r) := by
          simp [List.mem_filter, hn, hr]
        have hfne : pool.walk_nodes.filter (fun x => x.region == some r) ≠ [] := by
          intro hc
          rw [hc] at hfil
          simp at hfil
        obtain ⟨m, t, hsort, -, -, -⟩ := sortedByPlayerCount_head _ hfne
        exact ⟨m, by simp [NodePool.get_node, hne, hsort]⟩

def nodeRegionUS : Node := { identifier := some "us1", region := some "us" }

def poolRegion : NodePool := ⟨[(some "us1", nodeRegionUS)]⟩

/-- Witness for C5 (amended): at a one-node registry whose node has region
`"us"`, `select(region="eu")` raises `NoMatches`. -/
theorem get_node_error_characterization_witness :
    (poolRegion._nodes ≠ [] ∧ (∀ n ∈ poolRegion.walk_nodes, n.region ≠ some "eu"))
      ∧ poolRegion.get_node none (some "eu")
          = .error (.NoMatches none (some "eu")) :=
  ⟨⟨by decide, by decide⟩,
    (get_node_error_characterization poolRegion none (some "eu")).2.2.1 "eu"
      (by decide) rfl rfl (by decide)⟩

/-! ## Claim C6 -/

def nodeOverwritten : Node := { identifier := some "A", port := 1 }

def nodeOverwriter : Node := { identifier := some "A", port := 2 }

def poolOverwrite : NodePool := ⟨[(some "A", nodeOverwritten)]⟩

/-- C6 counterexample: `register` called with the explicit empty-string
identifier stores the node under the node's own identifier `"A"` (the empty
string is falsy in `identifier or node.identifier`), and `"A"` IS already
present in the registry — yet no `NodeConflict` is raised, because the
conflict check inspected `""`; the existing `"A"` entry is silently
overwritten, so the mapping does change on what the claim says must be a
failure. -/
theorem add_node_overwrites_without_conflict :
    pyOr (some "") nodeOverwriter.identifier = some "A"
      ∧ dictContains (some "A") poolOverwrite._nodes = true
      ∧ (poolOverwrite.add_node nodeOverwriter (some "")).1 = none
      ∧ ((poolOverwrite.add_node nodeOverwriter (some "")).2)._nodes
          = [(some "A", nodeOverwriter)] :=
  ⟨rfl, rfl, rfl, rfl⟩

/-- C6 (amended): `register` and `create` fail with `NodeConflict` if and
only if the identifier they CHECK is already present as a key — for
`register` the supplied identifier (defaulting to the node's own identifier
when omitted), which coincides with the storage key except when the supplied
identifier is the empty string; for `create` the supplied identifier after
the empty-registry `"MAIN"` defaulting — and on that failure the
identifier-to-node mapping is left unchanged. -/
theorem conflict_iff_checked_identifier (pool : NodePool) (node : Node)
    (host : String) (port : Nat) (region : Option String) :
    (∀ s, ((pool.add_node node (some s)).1 = some (.NodeConflict (some s))
        ↔ dictContains (some s) pool._nodes = true))
    ∧ ((pool.add_node node none).1 = some (.NodeConflict node.identifier)
        ↔ dictContains node.identifier pool._nodes = true)
    ∧ (∀ identifier, (pool.add_node node identifier).1 ≠ none
        → (pool.add_node node identifier).2 = pool)
    ∧ (∀ s, ((pool.create_node host port region (some s)).1
          = .error (.NodeConflict (some s))
        ↔ dictContains (some s) pool._nodes = true))
    ∧ (pool._nodes ≠ [] →
        ((pool.create_node host port region none).1 = .error (.NodeConflict none)
        ↔ dictContains none pool._nodes = true))
    ∧ (pool._nodes = [] →
        (pool.create_node host port region none).1
          = .ok { identifier := some "MAIN", host := host, port := port,
                  region := region, player_count := 0, players := [] })
    ∧ (∀ identifier e, (pool.create_node host port region identifier).1 = .error e
        → (pool.create_node host port region identifier).2 = pool) := by
  refine ⟨?_, ?_, ?_, ?_, ?_, ?_, ?_⟩
  · intro s
    by_cases h : dictContains (some s) pool._nodes
    · simp [NodePool.add_node, h]
    · simp [NodePool.add_node, h]
  · by_cases h : dictContains node.identifier pool._nodes
    · simp [NodePool.add_node, h]
    · simp [NodePool.add_node, h]
  · intro identifier hne
    cases identifier with
    | none =>
      by_cases h : dictContains node.identifier pool._nodes
      · simp [NodePool.add_node, h]
      · exact absurd (by simp [NodePool.add_node, h]) hne
    | some s =>
      by_cases h : dictContains (some s) pool._nodes
      · simp [NodePool.add_node, h]
      · exact absurd (by simp [NodePool.add_node, h]) hne
  · intro s
    by_cases h : dictContains (some s) pool._nodes
    · simp [NodePool.create_node, h]
    · simp [NodePool.create_node, h]
  · intro hne
    by_cases h : dictContains none pool._nodes
    · simp [NodePool.create_node, hne, h]
    · simp [NodePool.create_node, hne, h]
  · intro h
    simp [NodePool.create_node, h, dictContains]
  · intro identifier e he
    cases identifier with
    | none =>
      by_cases hp : pool._nodes = []
      · exact absurd he (by simp [NodePool.create_node, hp, dictContains])
      · by_cases h : dictContains none pool._nodes
        · simp [NodePool.create_node, hp, h]
        · exact absurd he (by simp [NodePool.create_node, hp, h])
    | some s =>
      by_cases h : dictContains (some s) pool._nodes
      · simp [NodePool.create_node, h]
      · exact absurd he (by simp [NodePool.create_node, h])

def nodeConflictC : Node := { identifier := some "C" }

def poolConflictC : NodePool := ⟨[(some "C", nodeConflictC)]⟩

/-- Witness for C6 (amended): registering under the already-present
identifier `"C"` raises `NodeConflict` and leaves the mapping unchanged. -/
theorem conflict_iff_checked_identifier_witness :
    (poolConflictC.add_node nodeConflictC (some "C")).1
        = some (.NodeConflict (some "C"))
      ∧ (poolConflictC.add_node nodeConflictC (some "C")).2 = poolConflictC :=
  ⟨((conflict_iff_checked_identifier poolConflictC nodeConflictC
      "127.0.0.1" 2333 none).1 "C").mpr (by decide),
    (conflict_iff_checked_identifier poolConflictC nodeConflictC
      "127.0.0.1" 2333 none).2.2.1 (some "C") (by decide)⟩

/-! ## Claim C9 -/

/-- C9: teardown is idempotent: whenever `destroy` completes without raising,
the registry afterwards has zero entries, and running `destroy` again on it
performs no per-node teardowns, raises no error, and leaves the (empty)
registry as it is. -/
theorem destroy_idempotent (pool : NodePool) (outcome : Node → Bool)
    (d : List Node) (pool' : NodePool)
    (h : pool.destroy outcome = (d, true, pool')) :
    pool'._nodes = [] ∧ pool'.destroy outcome = ([], true, pool') := by
  unfold NodePool.destroy at h
  by_cases hr : (destroyNodes outcome pool.walk_nodes).2
  · rw [if_pos hr] at h
    simp only [Prod.mk.injEq] at h
    obtain ⟨-, -, h3⟩ := h
    subst h3
    exact ⟨rfl, rfl⟩
  · rw [if_neg hr] at h
    simp only [Prod.mk.injEq] at h
    exact absurd h.2.1.symm (by simp)

def nodeSoleK : Node := { identifier := some "K" }

def poolSoleK : NodePool := ⟨[(some "K", nodeSoleK)]⟩

/-- Witness for C9 at a one-node registry whose teardown succeeds. -/
theorem destroy_idempotent_witness :
    poolSoleK.destroy (fun _ => true) = ([nodeSoleK], true, (⟨[]⟩ : NodePool))
      ∧ ((⟨[]⟩ : NodePool)._nodes = []
          ∧ (⟨[]⟩ : NodePool).destroy (fun _ => true) = ([], true, ⟨[]⟩)) :=
  ⟨rfl, destroy_idempotent poolSoleK (fun _ => true) [nodeSoleK] ⟨[]⟩ rfl⟩

/-! ## Claim C7 -/

/-- C7: `getOrCreateSession(K)` called twice with no intervening teardown
returns the identical player both times: if `get_player` with no explicit
node returns a player, calling it again on the resulting registry returns
the very same player identity, mutates nothing and allocates nothing — the
second call finds the player by scanning the registered nodes in
registration order instead of creating a duplicate. -/
theorem get_player_returns_same_player (pool : NodePool) (guild fresh : Nat)
    (pid : Nat) (pool' : NodePool) (fresh' : Nat)
    (h : pool.get_player guild none fresh = (.ok pid, pool', fresh')) :
    pool'.get_player guild none fresh' = (.ok pid, pool', fresh') := by
  simp only [NodePool.get_player] at h
  cases hscan : scanPlayers guild pool.walk_nodes with
  | some q =>
    simp only [hscan, Prod.mk.injEq, Except.ok.injEq] at h
    obtain ⟨rfl, rfl, rfl⟩ := h
    simp only [NodePool.get_player, hscan]
  | none =>
    simp only [hscan] at h
    cases hsel : pool.get_node none none with
    | error e => simp [hsel] at h
    | ok sel =>
      have hmem : sel ∈ pool.walk_nodes := get_node_mem pool sel hsel
      have hall : ∀ n ∈ pool.walk_nodes, dictGet guild n.players = none :=
        scanPlayers_eq_none guild pool.walk_nodes hscan
      have hselget : dictGet guild sel.players = none := hall sel hmem
      have hnotc : dictContains guild sel.players = false :=
        (dictGet_none_iff guild sel.players).mp hselget
      simp only [hsel, NodePool.get_player_on, Node.get_player, hselget,
        Bool.false_eq_true, if_false, Prod.mk.injEq, Except.ok.injEq] at h
      obtain ⟨rfl, hpool, rfl⟩ := h
      subst hpool
      have hnewget :
          dictGet guild (dictSet guild fresh sel.players) = some fresh := by
        rw [dictSet_of_not_contains _ _ _ hnotc]
        exact dictGet_append_self _ _ _ hnotc
      have hall' : ∀ n ∈ dictValues pool._nodes, dictGet guild n.players = none :=
        hall
      have hmem' : sel ∈ dictValues pool._nodes := hmem
      have hscan2 : scanPlayers guild
          (dictValues (replaceFirstValue sel
            { sel with players := dictSet guild fresh sel.players } pool._nodes))
          = some fresh :=
        scanPlayers_replaceFirstValue pool._nodes sel
          { sel with players := dictSet guild fresh sel.players } guild fresh
          hall' hmem' hnewget
      simp only [NodePool.get_player, NodePool.walk_nodes, hscan2]

def nodePlayerM : Node := { identifier := some "MAIN" }

def poolPlayer : NodePool := ⟨[(some "MAIN", nodePlayerM)]⟩

def poolPlayerAfter : NodePool :=
  ⟨[(some "MAIN", { nodePlayerM with players := [(5, 0)] })]⟩

/-- Witness for C7 at a one-node registry and guild key `5`: the first call
creates the player (identity `0`) on the selected node, the second call
returns the identical player and changes nothing. -/
theorem get_player_returns_same_player_witness :
    poolPlayer.get_player 5 none 0 = (.ok 0, poolPlayerAfter, 1)
      ∧ poolPlayerAfter.get_player 5 none 1 = (.ok 0, poolPlayerAfter, 1) :=
  ⟨rfl, get_player_returns_same_player poolPlayer 5 0 0 poolPlayerAfter 1 rfl⟩

/-! ## Claim C10 -/

/-- C10: each module-level convenience function (`create_node`, `start_node`,
`add_node`, `get_node`, `get_player`) is observationally equivalent to
calling the `NodePool` method of the same name on the process-wide
`DefaultNodePool` instance with the same arguments: given the same current
default-pool state it produces the same returned value or raised error and
the same resulting default-pool state. -/
theorem module_functions_delegate_to_pool_methods :
    (∀ (pool : NodePool) (host : String) (port : Nat)
        (region identifier : Option String),
      create_node pool host port region identifier
        = NodePool.create_node pool host port region identifier)
    ∧ (∀ (pool : NodePool) (outcome : Node → Option StartError) (host : String)
        (port : Nat) (region identifier : Option String),
      start_node pool outcome host port region identifier
        = NodePool.start_node pool outcome host port region identifier)
    ∧ (∀ (pool : NodePool) (node : Node) (identifier : Option String),
      add_node pool node identifier = NodePool.add_node pool node identifier)
    ∧ (∀ (pool : NodePool) (identifier region : Option String),
      get_node pool identifier region = NodePool.get_node pool identifier region)
    ∧ (∀ (pool : NodePool) (guild : Nat) (node? : Option Node) (fresh : Nat),
      get_player pool guild node? fresh
        = NodePool.get_player pool guild node? fresh) :=
  ⟨fun _ _ _ _ _ => rfl, fun _ _ _ _ _ _ => rfl, fun _ _ _ => rfl,
    fun _ _ _ => rfl, fun _ _ _ _ => rfl⟩

end Magmatic
